import Mathlib

/-!
Verification of the task-tree mutation engine and tool-dispatch layer of the
TaskAI repository.

The TypeScript source is shallowly embedded:

* `Task` mirrors the `Task` interface (`types.ts`): `id`, `title`,
  `isCompleted`, `priority`, `createdAt`, and an optional ordered list of
  subtasks.  `Priority` is a TypeScript *string* enum, so at runtime a
  priority is just a string and the `as Priority` cast performs no check;
  the field is therefore embedded as `String`.
* `subtasks : Option (List Task)` keeps the JavaScript distinction between
  an absent (`undefined`, embedded `none`) and a present (possibly empty)
  subtask array; JavaScript truthiness of the field (`task.subtasks ? _ : _`)
  is `none ↦ false`, `some _ ↦ true` (an empty array is truthy).
* `String.prototype.toLowerCase` / `includes` are embedded as `jsToLower` /
  `jsIncludes` (character-list map and substring containment; `includes`
  of the empty string is `true`, as in JavaScript).
* The mutable closure variables of the recursive helpers in `App.tsx`
  (`added`, `count`, `found`) are threaded as explicit state.
* The tool-execution loop of `handleSendMessage` is embedded as `runBatch`.
  Mutations go through React functional updates `setTasks(prev => ...)`,
  which React applies sequentially in dispatch order, each updater seeing
  the previous updater's result: this is embedded by threading the forest
  through `RoundState`.  `executeGetTasks(tasks)`, by contrast, reads the
  render-time closure variable `tasks`, which never changes during the
  handler: this is embedded by giving `runBatch` a fixed `snapshot`
  argument used only by the `getTasks` branch.
* `generateId` draws random base-36 strings; it is embedded as an injective
  deterministic supply `generateId : Nat → String` indexed by a counter
  threaded through `RoundState`, and `Date.now()` as a fixed `now`
  parameter.  No claim depends on the concrete identifier values.
-/

namespace TaskAI

/-- The `Task` interface of `types.ts`.  `priority` is a string at runtime
(TypeScript string enum); `subtasks` is optional. -/
inductive Task where
  | mk (id : String) (title : String) (isCompleted : Bool) (priority : String)
      (createdAt : Nat) (subtasks : Option (List Task))

def Task.id : Task → String
  | .mk i _ _ _ _ _ => i

def Task.title : Task → String
  | .mk _ ti _ _ _ _ => ti

def Task.isCompleted : Task → Bool
  | .mk _ _ c _ _ _ => c

def Task.priority : Task → String
  | .mk _ _ _ p _ _ => p

def Task.createdAt : Task → Nat
  | .mk _ _ _ _ cr _ => cr

def Task.subtasks : Task → Option (List Task)
  | .mk _ _ _ _ _ s => s

/-- The subtask list of a node, defaulting to `[]` when absent. -/
def subtasksD (t : Task) : List Task :=
  (t.subtasks).getD []

/-- The runtime value of the TypeScript string-enum member `Priority.LOW`. -/
def PriorityLOW : String := "low"

/-- The runtime value of `Priority.MEDIUM`. -/
def PriorityMEDIUM : String := "medium"

/-- The runtime value of `Priority.HIGH`. -/
def PriorityHIGH : String := "high"

/-- JavaScript `String.prototype.toLowerCase`, embedded as a character map. -/
def jsToLower (s : String) : String :=
  String.mk (s.data.map Char.toLower)

/-- Does the second list occur as a prefix of the first argument list?
Auxiliary for `listContains`. -/
def listStartsWith : List Char → List Char → Bool
  | [], _ => true
  | _ :: _, [] => false
  | a :: as, b :: bs => a == b && listStartsWith as bs

/-- Does `sub` occur as a contiguous sublist?  `listContains sub l` scans
`l` left to right; the empty `sub` is contained in every list. -/
def listContains (sub : List Char) : List Char → Bool
  | [] => sub.isEmpty
  | c :: cs => listStartsWith sub (c :: cs) || listContains sub cs

/-- JavaScript `s.includes(sub)`: contiguous substring containment, with
`s.includes("") = true`. -/
def jsIncludes (s sub : String) : Bool :=
  listContains sub.data s.data

/-- The match test of `addSubtaskRecursive` (App.tsx line 41):
`task.id === parentQuery || task.title.toLowerCase().includes(parentQuery.toLowerCase())`. -/
def taskMatch (parentQuery i ti : String) : Bool :=
  i == parentQuery || jsIncludes (jsToLower ti) (jsToLower parentQuery)

/-- `taskMatch` as a predicate on a whole node. -/
def subtaskMatch (parentQuery : String) (t : Task) : Bool :=
  taskMatch parentQuery t.id t.title

/-- The match test of `findAndRemoveRecursive` (App.tsx lines 68-69):
`matchId = taskId && task.id === taskId` and
`matchTitle = searchTitle && task.title.toLowerCase().includes(searchTitle.toLowerCase())`,
combined as `matchId || matchTitle`.  JavaScript truthiness makes an absent
or empty string operand falsy, so an empty query never matches. -/
def removeMatch (taskId searchTitle : Option String) (i ti : String) : Bool :=
  (match taskId with
   | none => false
   | some s => !(s == "") && i == s)
  || (match searchTitle with
      | none => false
      | some s => !(s == "") && jsIncludes (jsToLower ti) (jsToLower s))

/-- `toggleTaskRecursive` (App.tsx lines 14-24): flip `isCompleted` on the
node with the given id; a matched node returns early (its subtasks are not
traversed), all other nodes recurse into their subtask list when present. -/
def toggleTaskRecursive : List Task → String → List Task
  | [], _ => []
  | .mk i ti c p cr none :: ts, q =>
    (if i == q then Task.mk i ti (!c) p cr none else Task.mk i ti c p cr none)
      :: toggleTaskRecursive ts q
  | .mk i ti c p cr (some l) :: ts, q =>
    (if i == q then Task.mk i ti (!c) p cr (some l)
     else Task.mk i ti c p cr (some (toggleTaskRecursive l q)))
      :: toggleTaskRecursive ts q

/-- `deleteTaskRecursive` (App.tsx lines 26-33): filter out every node with
the given id at the current level, then recurse into the kept nodes'
subtask lists (`undefined` stays `undefined`). -/
def deleteTaskRecursive : List Task → String → List Task
  | [], _ => []
  | .mk i ti c p cr none :: ts, q =>
    if i == q then deleteTaskRecursive ts q
    else Task.mk i ti c p cr none :: deleteTaskRecursive ts q
  | .mk i ti c p cr (some l) :: ts, q =>
    if i == q then deleteTaskRecursive ts q
    else Task.mk i ti c p cr (some (deleteTaskRecursive l q)) :: deleteTaskRecursive ts q

/-- The `updateInfo` closure of `addSubtaskRecursive` (App.tsx lines 38-57)
with the mutable `added` flag threaded as explicit state.  A node matching
while `added` is still false receives the new subtask appended
(`task.subtasks ? [...task.subtasks, newSubtask] : [newSubtask]`) and
returns early; every other node recurses into its subtask list (when
present) before its later siblings are visited. -/
def addSubtaskGo (q : String) (nu : Task) : Bool → List Task → List Task × Bool
  | added, [] => ([], added)
  | added, .mk i ti c p cr none :: ts =>
    if taskMatch q i ti && !added then
      let r := addSubtaskGo q nu true ts
      (Task.mk i ti c p cr (some [nu]) :: r.1, r.2)
    else
      let r := addSubtaskGo q nu added ts
      (Task.mk i ti c p cr none :: r.1, r.2)
  | added, .mk i ti c p cr (some l) :: ts =>
    if taskMatch q i ti && !added then
      let r := addSubtaskGo q nu true ts
      (Task.mk i ti c p cr (some (l ++ [nu])) :: r.1, r.2)
    else
      let rs := addSubtaskGo q nu added l
      let r := addSubtaskGo q nu rs.2 ts
      (Task.mk i ti c p cr (some rs.1) :: r.1, r.2)

/-- `addSubtaskRecursive` (App.tsx lines 35-61): returns
`(updatedTasks, success)`. -/
def addSubtaskRecursive (tasks : List Task) (parentQuery : String) (newSubtask : Task) :
    List Task × Bool :=
  addSubtaskGo parentQuery newSubtask false tasks

/-- The `filterList` closure of `findAndRemoveRecursive` (App.tsx lines
66-85) with the mutable `count` threaded as explicit state.  A matched node
is dropped together with its entire subtree (descendants are never tested)
and counted; a kept node has its subtask list filtered recursively when
present. -/
def findAndRemoveGo (taskId searchTitle : Option String) : List Task → List Task × Nat
  | [] => ([], 0)
  | .mk i ti c p cr none :: ts =>
    if removeMatch taskId searchTitle i ti then
      let r := findAndRemoveGo taskId searchTitle ts
      (r.1, 1 + r.2)
    else
      let r := findAndRemoveGo taskId searchTitle ts
      (Task.mk i ti c p cr none :: r.1, r.2)
  | .mk i ti c p cr (some l) :: ts =>
    if removeMatch taskId searchTitle i ti then
      let r := findAndRemoveGo taskId searchTitle ts
      (r.1, 1 + r.2)
    else
      let rs := findAndRemoveGo taskId searchTitle l
      let r := findAndRemoveGo taskId searchTitle ts
      (Task.mk i ti c p cr (some rs.1) :: r.1, rs.2 + r.2)

/-- `findAndRemoveRecursive` (App.tsx lines 63-89): returns
`(updatedTasks, removedCount)`. -/
def findAndRemoveRecursive (tasks : List Task) (taskId searchTitle : Option String) :
    List Task × Nat :=
  findAndRemoveGo taskId searchTitle tasks

/-- The `updateList` closure of `updateStatusRecursive` (App.tsx lines
94-105) with the mutable `found` flag threaded as explicit state.  A node
with the given id gets `isCompleted` set and returns early (its subtasks
are not traversed); other nodes recurse into their subtask list when
present. -/
def updateStatusGo (q : String) (b : Bool) : List Task → List Task × Bool
  | [] => ([], false)
  | .mk i ti c p cr none :: ts =>
    if i == q then
      let r := updateStatusGo q b ts
      (Task.mk i ti b p cr none :: r.1, true)
    else
      let r := updateStatusGo q b ts
      (Task.mk i ti c p cr none :: r.1, r.2)
  | .mk i ti c p cr (some l) :: ts =>
    if i == q then
      let r := updateStatusGo q b ts
      (Task.mk i ti b p cr (some l) :: r.1, true)
    else
      let rs := updateStatusGo q b l
      let r := updateStatusGo q b ts
      (Task.mk i ti c p cr (some rs.1) :: r.1, rs.2 || r.2)

/-- `updateStatusRecursive` (App.tsx lines 91-109): returns
`(updatedTasks, found)`. -/
def updateStatusRecursive (tasks : List Task) (taskId : String) (completed : Bool) :
    List Task × Bool :=
  updateStatusGo taskId completed tasks

/-- The simplified projection produced by `executeGetTasks` (App.tsx lines
239-245): `id`, `title`, `priority`, `completed`, recursively simplified
subtasks (absent list projected to `[]`). -/
inductive TaskView where
  | mk (id : String) (title : String) (priority : String) (completed : Bool)
      (subtasks : List TaskView)

/-- The `simplify` closure of `executeGetTasks`. -/
def simplify : List Task → List TaskView
  | [] => []
  | .mk i ti c p _ none :: ts => TaskView.mk i ti p c [] :: simplify ts
  | .mk i ti c p _ (some l) :: ts => TaskView.mk i ti p c (simplify l) :: simplify ts

/-- Deterministic injective stand-in for `generateId` (random base-36
string in `types.ts`); the counter is threaded through `RoundState`. -/
def generateId (n : Nat) : String :=
  "id" ++ Nat.repr n

/-- `(priority as Priority) || Priority.MEDIUM` (App.tsx line 178): the
cast is a runtime no-op, `||` replaces only a falsy (absent or empty)
value by `"medium"`; every other string passes through unvalidated. -/
def jsOrPriority : Option String → String
  | none => PriorityMEDIUM
  | some s => if s == "" then PriorityMEDIUM else s

/-- One tool invocation requested by the model (name plus arguments), as
dispatched by the if-else chain of `handleSendMessage` (App.tsx lines
286-296).  `other` covers any name outside the catalogue. -/
inductive ToolCall where
  | addTask (title : String) (priority : Option String)
  | addSubtask (parentQuery : String) (title : String) (priority : Option String)
  | removeTask (taskId searchTitle : Option String)
  | updateTaskStatus (taskId : String) (completed : Bool)
  | getTasks
  | other (name : String)

/-- The structured result object returned by the `execute*` handlers:
a `{ result: string }` message, the `{ tasks: [...] }` view of
`executeGetTasks`, or the `{ error: "Unknown tool" }` default. -/
inductive ToolResult where
  | message (s : String)
  | taskList (v : List TaskView)
  | unknownTool

/-- The mutable state a round of `handleSendMessage` threads through its
tool loop: the forest as maintained by the queued `setTasks(prev => ...)`
functional updates (React applies them sequentially in dispatch order),
plus the id-supply counter standing in for `generateId`. -/
structure RoundState where
  tasks : List Task
  nextId : Nat

/-- Dispatch of a single tool invocation (the body of the `for` loop of
`handleSendMessage`, App.tsx lines 275-305, inlining `executeAddTask`,
`executeAddSubtask`, `executeRemoveTask`, `executeUpdateTaskStatus` and
`executeGetTasks`).  `snapshot` is the render-time closure variable
`tasks`, which the handler never rebinds: only the `getTasks` branch reads
it.  All mutating branches act on `st.tasks`, the forest threaded through
the functional updates.  Quotation marks of the original message strings
are dropped. -/
def dispatchCall (snapshot : List Task) (now : Nat) (st : RoundState) :
    ToolCall → RoundState × ToolResult
  | ToolCall.addTask title pr =>
    let nt := Task.mk (generateId st.nextId) title false (jsOrPriority pr) now (some [])
    (RoundState.mk (nt :: st.tasks) (st.nextId + 1),
     ToolResult.message ("Task added successfully with ID: " ++ nt.id))
  | ToolCall.addSubtask pq title pr =>
    let nt := Task.mk (generateId st.nextId) title false (jsOrPriority pr) now (some [])
    let r := addSubtaskRecursive st.tasks pq nt
    (RoundState.mk r.1 (st.nextId + 1),
     ToolResult.message
       (if r.2 then "Subtask " ++ title ++ " added to parent matching " ++ pq ++ "."
        else "Could not find a parent task matching " ++ pq ++ " to add the subtask to."))
  | ToolCall.removeTask tid sT =>
    let r := findAndRemoveRecursive st.tasks tid sT
    (RoundState.mk r.1 st.nextId,
     ToolResult.message
       (if r.2 > 0 then "Successfully removed " ++ Nat.repr r.2 ++ " task(s)."
        else "No tasks found matching that criteria."))
  | ToolCall.updateTaskStatus tid b =>
    let r := updateStatusRecursive st.tasks tid b
    (RoundState.mk r.1 st.nextId,
     ToolResult.message
       (if r.2 then
          "Task " ++ tid ++ " marked as " ++ (if b then "completed" else "incomplete") ++ "."
        else "Task with ID " ++ tid ++ " not found."))
  | ToolCall.getTasks => (st, ToolResult.taskList (simplify snapshot))
  | ToolCall.other _ => (st, ToolResult.unknownTool)

/-- The tool loop of one round of `handleSendMessage`: invocations are
processed in model-specified order, each dispatched against the state left
by the previous one; results are collected in order. -/
def runBatch (snapshot : List Task) (now : Nat) :
    RoundState → List ToolCall → RoundState × List ToolResult
  | st, [] => (st, [])
  | st, c :: cs =>
    let r := dispatchCall snapshot now st c
    let rest := runBatch snapshot now r.1 cs
    (rest.1, r.2 :: rest.2)

/-- Depth-first, parent-before-children, sibling-order listing of every
node of the forest. -/
def flattenForest : List Task → List Task
  | [] => []
  | .mk i ti c p cr none :: ts => Task.mk i ti c p cr none :: flattenForest ts
  | .mk i ti c p cr (some l) :: ts =>
    Task.mk i ti c p cr (some l) :: (flattenForest l ++ flattenForest ts)

/-- Total number of nodes in the forest, at every depth. -/
def forestNodeCount : List Task → Nat
  | [] => 0
  | .mk _ _ _ _ _ none :: ts => 1 + forestNodeCount ts
  | .mk _ _ _ _ _ (some l) :: ts => 1 + forestNodeCount l + forestNodeCount ts

/-- Number of nodes (at every depth) whose id equals `q`. -/
def countNodesWithId : List Task → String → Nat
  | [], _ => 0
  | .mk i _ _ _ _ none :: ts, q =>
    (if i == q then 1 else 0) + countNodesWithId ts q
  | .mk i _ _ _ _ (some l) :: ts, q =>
    (if i == q then 1 else 0) + countNodesWithId l q + countNodesWithId ts q

/-- Ids of all nodes in depth-first order. -/
def forestIds : List Task → List String
  | [] => []
  | .mk i _ _ _ _ none :: ts => i :: forestIds ts
  | .mk i _ _ _ _ (some l) :: ts => i :: (forestIds l ++ forestIds ts)

/-- Titles of all nodes in depth-first order. -/
def forestTitles : List Task → List String
  | [] => []
  | .mk _ ti _ _ _ none :: ts => ti :: forestTitles ts
  | .mk _ ti _ _ _ (some l) :: ts => ti :: (forestTitles l ++ forestTitles ts)

/-- Priorities of all nodes in depth-first order. -/
def forestPriorities : List Task → List String
  | [] => []
  | .mk _ _ _ p _ none :: ts => p :: forestPriorities ts
  | .mk _ _ _ p _ (some l) :: ts => p :: (forestPriorities l ++ forestPriorities ts)

/-- Creation timestamps of all nodes in depth-first order. -/
def forestCreated : List Task → List Nat
  | [] => []
  | .mk _ _ _ _ cr none :: ts => cr :: forestCreated ts
  | .mk _ _ _ _ cr (some l) :: ts => cr :: (forestCreated l ++ forestCreated ts)

/-- Pairs (id, isCompleted) of all nodes in depth-first order. -/
def forestIdCompleted : List Task → List (String × Bool)
  | [] => []
  | .mk i _ c _ _ none :: ts => (i, c) :: forestIdCompleted ts
  | .mk i _ c _ _ (some l) :: ts => (i, c) :: (forestIdCompleted l ++ forestIdCompleted ts)

/-- Specification forest for `removeByIdOrTitle`, written from the spec:
every node matching the predicate is removed together with its entire
subtree (descendants of a match are never tested); a kept node keeps all
its fields, with its subtask list pruned recursively. -/
def prunedForest (taskId searchTitle : Option String) : List Task → List Task
  | [] => []
  | .mk i ti c p cr none :: ts =>
    if removeMatch taskId searchTitle i ti then prunedForest taskId searchTitle ts
    else Task.mk i ti c p cr none :: prunedForest taskId searchTitle ts
  | .mk i ti c p cr (some l) :: ts =>
    if removeMatch taskId searchTitle i ti then prunedForest taskId searchTitle ts
    else Task.mk i ti c p cr (some (prunedForest taskId searchTitle l))
      :: prunedForest taskId searchTitle ts

/-- Specification count for `removeByIdOrTitle`, written from the spec:
the number of matched nodes that are removed as top-level matches; the
descendants of a match are discarded without being counted. -/
def countTopMatches (taskId searchTitle : Option String) : List Task → Nat
  | [] => 0
  | .mk i ti _ _ _ none :: ts =>
    (if removeMatch taskId searchTitle i ti then 1 else 0)
      + countTopMatches taskId searchTitle ts
  | .mk i ti _ _ _ (some l) :: ts =>
    (if removeMatch taskId searchTitle i ti then 1
     else countTopMatches taskId searchTitle l)
      + countTopMatches taskId searchTitle ts

/-- Specification insertion for `insertSubtask`, written from the spec:
locate the first node in depth-first, parent-before-children,
sibling-order traversal matching the query and append the new task at the
end of its subtask list (creating the list if absent); every other node is
left untouched; `none` when no node matches. -/
def insertSubtaskSpec (q : String) (nu : Task) : List Task → Option (List Task)
  | [] => none
  | .mk i ti c p cr none :: ts =>
    if taskMatch q i ti then some (Task.mk i ti c p cr (some [nu]) :: ts)
    else (insertSubtaskSpec q nu ts).map (fun ts2 => Task.mk i ti c p cr none :: ts2)
  | .mk i ti c p cr (some l) :: ts =>
    if taskMatch q i ti then some (Task.mk i ti c p cr (some (l ++ [nu])) :: ts)
    else
      match insertSubtaskSpec q nu l with
      | some l2 => some (Task.mk i ti c p cr (some l2) :: ts)
      | none => (insertSubtaskSpec q nu ts).map (fun ts2 => Task.mk i ti c p cr (some l) :: ts2)

/-- Specification update for `setCompletion`, written from the spec: set
`isCompleted` to the given value on every node whose id matches, leaving
every other node and every other field unchanged. -/
def setCompletionSpec (q : String) (b : Bool) : List Task → List Task
  | [] => []
  | .mk i ti c p cr none :: ts =>
    Task.mk i ti (if i == q then b else c) p cr none :: setCompletionSpec q b ts
  | .mk i ti c p cr (some l) :: ts =>
    Task.mk i ti (if i == q then b else c) p cr (some (setCompletionSpec q b l))
      :: setCompletionSpec q b ts

/-- The result of appending a new subtask to a node, as built by
`addSubtaskRecursive`: `subtasks: task.subtasks ? [...task.subtasks, newSubtask] : [newSubtask]`. -/
def appendChild : Task → Task → Task
  | .mk i ti c p cr none, nu => Task.mk i ti c p cr (some [nu])
  | .mk i ti c p cr (some l), nu => Task.mk i ti c p cr (some (l ++ [nu]))

@[simp] theorem Task.id_mk (i ti : String) (c : Bool) (p : String) (cr : Nat)
    (s : Option (List Task)) : (Task.mk i ti c p cr s).id = i := rfl

@[simp] theorem Task.title_mk (i ti : String) (c : Bool) (p : String) (cr : Nat)
    (s : Option (List Task)) : (Task.mk i ti c p cr s).title = ti := rfl

@[simp] theorem Task.isCompleted_mk (i ti : String) (c : Bool) (p : String) (cr : Nat)
    (s : Option (List Task)) : (Task.mk i ti c p cr s).isCompleted = c := rfl

@[simp] theorem Task.priority_mk (i ti : String) (c : Bool) (p : String) (cr : Nat)
    (s : Option (List Task)) : (Task.mk i ti c p cr s).priority = p := rfl

@[simp] theorem Task.createdAt_mk (i ti : String) (c : Bool) (p : String) (cr : Nat)
    (s : Option (List Task)) : (Task.mk i ti c p cr s).createdAt = cr := rfl

@[simp] theorem Task.subtasks_mk (i ti : String) (c : Bool) (p : String) (cr : Nat)
    (s : Option (List Task)) : (Task.mk i ti c p cr s).subtasks = s := rfl

/-- Induction principle matching the recursion pattern of every forest
operation: to prove a property of all forests it suffices to cover the
empty forest and the step from a head node (given the property for its
subtask list) and a tail. -/
theorem forestInduction (P : List Task → Prop) (h1 : P [])
    (h2 : ∀ t ts, P (subtasksD t) → P ts → P (t :: ts)) : ∀ ts, P ts := by
  have key : ∀ n ts, sizeOf ts ≤ n → P ts := by
    intro n
    induction n with
    | zero =>
      intro ts h
      cases ts with
      | nil => exact h1
      | cons t ts2 => simp at h
    | succ n ih =>
      intro ts h
      cases ts with
      | nil => exact h1
      | cons t ts2 =>
        apply h2
        · apply ih
          cases t with
          | mk i ti c p cr sub =>
            cases sub with
            | none => simp [subtasksD, Task.subtasks] at *; omega
            | some l => simp [subtasksD, Task.subtasks] at *; omega
        · apply ih
          simp at h
          omega
  intro ts
  exact key (sizeOf ts) ts (Nat.le_refl _)

@[simp] theorem subtasksD_none (i ti : String) (c : Bool) (p : String) (cr : Nat) :
    subtasksD (Task.mk i ti c p cr none) = [] := rfl

@[simp] theorem subtasksD_some (i ti : String) (c : Bool) (p : String) (cr : Nat)
    (l : List Task) : subtasksD (Task.mk i ti c p cr (some l)) = l := rfl

theorem listContains_nil (l : List Char) : listContains [] l = true := by
  cases l with
  | nil => rfl
  | cons c cs => simp [listContains, listStartsWith]

/-- JavaScript `s.includes("")` is `true` for every string `s`. -/
theorem jsIncludes_blank (s : String) : jsIncludes s "" = true := by
  have h : ("" : String).data = [] := rfl
  simp [jsIncludes, h, listContains_nil]

/-- The empty parent query matches every node: the title test is
`includes("")`. -/
theorem taskMatch_blank (i ti : String) : taskMatch "" i ti = true := by
  have h : jsToLower "" = "" := rfl
  simp [taskMatch, h, jsIncludes_blank]

/-- An empty `searchTitle` string is falsy in JavaScript, so the title
predicate of `removeByIdOrTitle` behaves exactly as an absent one. -/
theorem removeMatch_blank_title (tid : Option String) (i ti : String) :
    removeMatch tid (some "") i ti = removeMatch tid none i ti := rfl

theorem removeMatch_none_none (i ti : String) : removeMatch none none i ti = false := rfl

theorem toggle_no_id (q : String) :
    ∀ ts, countNodesWithId ts q = 0 → toggleTaskRecursive ts q = ts := by
  apply forestInduction
  · intro _
    simp [toggleTaskRecursive]
  · intro t ts ihSub ihTs
    cases t with
    | mk i ti c p cr sub =>
      cases sub with
      | none =>
        intro h
        by_cases hiq : (i == q) = true
        · simp [countNodesWithId, hiq] at h
        · simp only [Bool.not_eq_true] at hiq
          simp [countNodesWithId, hiq] at h
          simp [toggleTaskRecursive, hiq, ihTs h]
      | some l =>
        simp only [subtasksD_some] at ihSub
        intro h
        by_cases hiq : (i == q) = true
        · simp [countNodesWithId, hiq] at h
        · simp only [Bool.not_eq_true] at hiq
          simp [countNodesWithId, hiq] at h
          simp [toggleTaskRecursive, hiq, ihSub h.1, ihTs h.2]

theorem delete_no_id (q : String) :
    ∀ ts, countNodesWithId ts q = 0 → deleteTaskRecursive ts q = ts := by
  apply forestInduction
  · intro _
    simp [deleteTaskRecursive]
  · intro t ts ihSub ihTs
    cases t with
    | mk i ti c p cr sub =>
      cases sub with
      | none =>
        intro h
        by_cases hiq : (i == q) = true
        · simp [countNodesWithId, hiq] at h
        · simp only [Bool.not_eq_true] at hiq
          simp [countNodesWithId, hiq] at h
          simp [deleteTaskRecursive, hiq, ihTs h]
      | some l =>
        simp only [subtasksD_some] at ihSub
        intro h
        by_cases hiq : (i == q) = true
        · simp [countNodesWithId, hiq] at h
        · simp only [Bool.not_eq_true] at hiq
          simp [countNodesWithId, hiq] at h
          simp [deleteTaskRecursive, hiq, ihSub h.1, ihTs h.2]

theorem update_no_id (q : String) (b : Bool) :
    ∀ ts, countNodesWithId ts q = 0 → updateStatusGo q b ts = (ts, false) := by
  apply forestInduction
  · intro _
    simp [updateStatusGo]
  · intro t ts ihSub ihTs
    cases t with
    | mk i ti c p cr sub =>
      cases sub with
      | none =>
        intro h
        by_cases hiq : (i == q) = true
        · simp [countNodesWithId, hiq] at h
        · simp only [Bool.not_eq_true] at hiq
          simp [countNodesWithId, hiq] at h
          simp [updateStatusGo, hiq, ihTs h]
      | some l =>
        simp only [subtasksD_some] at ihSub
        intro h
        by_cases hiq : (i == q) = true
        · simp [countNodesWithId, hiq] at h
        · simp only [Bool.not_eq_true] at hiq
          simp [countNodesWithId, hiq] at h
          simp [updateStatusGo, hiq, ihSub h.1, ihTs h.2]

theorem delete_removes_id (q : String) :
    ∀ ts, countNodesWithId (deleteTaskRecursive ts q) q = 0 := by
  apply forestInduction
  · simp [deleteTaskRecursive, countNodesWithId]
  · intro t ts ihSub ihTs
    cases t with
    | mk i ti c p cr sub =>
      cases sub with
      | none =>
        by_cases hiq : (i == q) = true
        · simp [deleteTaskRecursive, hiq, ihTs]
        · simp only [Bool.not_eq_true] at hiq
          simp [deleteTaskRecursive, countNodesWithId, hiq, ihTs]
      | some l =>
        simp only [subtasksD_some] at ihSub
        by_cases hiq : (i == q) = true
        · simp [deleteTaskRecursive, hiq, ihTs]
        · simp only [Bool.not_eq_true] at hiq
          simp [deleteTaskRecursive, countNodesWithId, hiq, ihSub, ihTs]

/-- Claim C6: for every forest and every id occurring nowhere in it,
`toggleCompletion` and `deleteSubtree` return the forest unchanged and
`setCompletion` returns the unchanged forest with `found = false`; the
not-found case is signalled only through the returned value. -/
theorem not_found_noop (ts : List Task) (q : String) (b : Bool)
    (h : countNodesWithId ts q = 0) :
    toggleTaskRecursive ts q = ts ∧ deleteTaskRecursive ts q = ts ∧
      updateStatusRecursive ts q b = (ts, false) :=
  ⟨toggle_no_id q ts h, delete_no_id q ts h, update_no_id q b ts h⟩

/-- Witness for C6 on a concrete two-level forest and the fresh id `"9"`. -/
theorem not_found_noop_witness :
    countNodesWithId
        [Task.mk "1" "Review project requirements" false "high" 0
          (some [Task.mk "2" "Check email specs" false "medium" 0 none]),
         Task.mk "3" "Buy coffee beans" true "low" 1 none] "9" = 0 ∧
      toggleTaskRecursive
        [Task.mk "1" "Review project requirements" false "high" 0
          (some [Task.mk "2" "Check email specs" false "medium" 0 none]),
         Task.mk "3" "Buy coffee beans" true "low" 1 none] "9" =
        [Task.mk "1" "Review project requirements" false "high" 0
          (some [Task.mk "2" "Check email specs" false "medium" 0 none]),
         Task.mk "3" "Buy coffee beans" true "low" 1 none] ∧
      updateStatusRecursive
        [Task.mk "1" "Review project requirements" false "high" 0
          (some [Task.mk "2" "Check email specs" false "medium" 0 none]),
         Task.mk "3" "Buy coffee beans" true "low" 1 none] "9" true =
        ([Task.mk "1" "Review project requirements" false "high" 0
          (some [Task.mk "2" "Check email specs" false "medium" 0 none]),
          Task.mk "3" "Buy coffee beans" true "low" 1 none], false) := by
  have hc : countNodesWithId
      [Task.mk "1" "Review project requirements" false "high" 0
        (some [Task.mk "2" "Check email specs" false "medium" 0 none]),
       Task.mk "3" "Buy coffee beans" true "low" 1 none] "9" = 0 := by
    simp [countNodesWithId]
  exact ⟨hc, (not_found_noop _ "9" true hc).1, (not_found_noop _ "9" true hc).2.2⟩

/-- Claim C8: `deleteSubtree` is idempotent; after one application no node
with the id remains at any depth, so the second application is a no-op. -/
theorem deleteSubtree_idempotent (ts : List Task) (q : String) :
    deleteTaskRecursive (deleteTaskRecursive ts q) q = deleteTaskRecursive ts q :=
  delete_no_id q (deleteTaskRecursive ts q) (delete_removes_id q ts)

theorem findRemove_go_spec (tid sT : Option String) :
    ∀ ts, findAndRemoveGo tid sT ts = (prunedForest tid sT ts, countTopMatches tid sT ts) := by
  apply forestInduction
  · simp [findAndRemoveGo, prunedForest, countTopMatches]
  · intro t ts ihSub ihTs
    cases t with
    | mk i ti c p cr sub =>
      cases sub with
      | none =>
        by_cases hm : removeMatch tid sT i ti = true
        · simp [findAndRemoveGo, prunedForest, countTopMatches, hm, ihTs]
        · simp only [Bool.not_eq_true] at hm
          simp [findAndRemoveGo, prunedForest, countTopMatches, hm, ihTs]
      | some l =>
        simp only [subtasksD_some] at ihSub
        by_cases hm : removeMatch tid sT i ti = true
        · simp [findAndRemoveGo, prunedForest, countTopMatches, hm, ihTs]
        · simp only [Bool.not_eq_true] at hm
          simp [findAndRemoveGo, prunedForest, countTopMatches, hm, ihSub, ihTs]

theorem pruned_no_match (tid sT : Option String) :
    ∀ ts, (flattenForest (prunedForest tid sT ts)).all
      (fun t => !(removeMatch tid sT t.id t.title)) = true := by
  apply forestInduction
  · simp [prunedForest, flattenForest]
  · intro t ts ihSub ihTs
    cases t with
    | mk i ti c p cr sub =>
      cases sub with
      | none =>
        by_cases hm : removeMatch tid sT i ti = true
        · simp [prunedForest, hm, ihTs]
        · simp only [Bool.not_eq_true] at hm
          simp [prunedForest, flattenForest, hm, ihTs]
      | some l =>
        simp only [subtasksD_some] at ihSub
        by_cases hm : removeMatch tid sT i ti = true
        · simp [prunedForest, hm, ihTs]
        · simp only [Bool.not_eq_true] at hm
          simp [prunedForest, flattenForest, hm, ihSub, ihTs]

theorem pruned_none_none : ∀ ts, prunedForest none none ts = ts := by
  apply forestInduction
  · simp [prunedForest]
  · intro t ts ihSub ihTs
    cases t with
    | mk i ti c p cr sub =>
      cases sub with
      | none => simp [prunedForest, removeMatch_none_none, ihTs]
      | some l =>
        simp only [subtasksD_some] at ihSub
        simp [prunedForest, removeMatch_none_none, ihSub, ihTs]

theorem countTop_none_none : ∀ ts, countTopMatches none none ts = 0 := by
  apply forestInduction
  · simp [countTopMatches]
  · intro t ts ihSub ihTs
    cases t with
    | mk i ti c p cr sub =>
      cases sub with
      | none => simp [countTopMatches, removeMatch_none_none, ihTs]
      | some l =>
        simp only [subtasksD_some] at ihSub
        simp [countTopMatches, removeMatch_none_none, ihSub, ihTs]

theorem findRemove_go_blank_title (tid : Option String) :
    ∀ ts, findAndRemoveGo tid (some "") ts = findAndRemoveGo tid none ts := by
  apply forestInduction
  · simp [findAndRemoveGo]
  · intro t ts ihSub ihTs
    cases t with
    | mk i ti c p cr sub =>
      cases sub with
      | none =>
        by_cases hm : removeMatch tid none i ti = true
        · simp [findAndRemoveGo, removeMatch_blank_title, hm, ihTs]
        · simp only [Bool.not_eq_true] at hm
          simp [findAndRemoveGo, removeMatch_blank_title, hm, ihTs]
      | some l =>
        simp only [subtasksD_some] at ihSub
        by_cases hm : removeMatch tid none i ti = true
        · simp [findAndRemoveGo, removeMatch_blank_title, hm, ihTs]
        · simp only [Bool.not_eq_true] at hm
          simp [findAndRemoveGo, removeMatch_blank_title, hm, ihSub, ihTs]

/-- Claim C2: `removeByIdOrTitle` removes every node, at any depth, whose
id equals `taskId` or whose title contains `searchTitle`
case-insensitively (no node of the result matches either predicate), it
discards a matched node's entire subtree without testing the descendants,
and `removedCount` counts exactly the top-level matches: the result and
count coincide with the specification functions `prunedForest` and
`countTopMatches`. -/
theorem removeByIdOrTitle_removes_all_matches (tid sT : Option String) (ts : List Task) :
    findAndRemoveRecursive ts tid sT = (prunedForest tid sT ts, countTopMatches tid sT ts) ∧
      (flattenForest (findAndRemoveRecursive ts tid sT).1).all
        (fun t => !(removeMatch tid sT t.id t.title)) = true := by
  constructor
  · exact findRemove_go_spec tid sT ts
  · rw [show (findAndRemoveRecursive ts tid sT).1 = prunedForest tid sT ts by
      rw [findAndRemoveRecursive, findRemove_go_spec]]
    exact pruned_no_match tid sT ts

/-- Claim C5: an empty or absent `searchTitle` never matches through the
title predicate (`removeByIdOrTitle` behaves identically for `""` and for
an absent title), and with neither `taskId` nor `searchTitle` provided the
forest is returned unchanged with `removedCount = 0`. -/
theorem remove_empty_query_no_match (ts : List Task) (tid : Option String) :
    findAndRemoveRecursive ts tid (some "") = findAndRemoveRecursive ts tid none ∧
      findAndRemoveRecursive ts none none = (ts, 0) ∧
      findAndRemoveRecursive ts none (some "") = (ts, 0) := by
  refine ⟨findRemove_go_blank_title tid ts, ?_, ?_⟩
  · rw [findAndRemoveRecursive, findRemove_go_spec, pruned_none_none, countTop_none_none]
  · rw [findAndRemoveRecursive, findRemove_go_blank_title, findRemove_go_spec,
      pruned_none_none, countTop_none_none]

theorem addGo_true (q : String) (nu : Task) :
    ∀ ts, addSubtaskGo q nu true ts = (ts, true) := by
  apply forestInduction
  · simp [addSubtaskGo]
  · intro t ts ihSub ihTs
    cases t with
    | mk i ti c p cr sub =>
      cases sub with
      | none => simp [addSubtaskGo, ihTs]
      | some l =>
        simp only [subtasksD_some] at ihSub
        simp [addSubtaskGo, ihSub, ihTs]

theorem addGo_false_spec (q : String) (nu : Task) :
    ∀ ts, addSubtaskGo q nu false ts =
      (match insertSubtaskSpec q nu ts with
       | some ts2 => (ts2, true)
       | none => (ts, false)) := by
  apply forestInduction
  · simp [addSubtaskGo, insertSubtaskSpec]
  · intro t ts ihSub ihTs
    cases t with
    | mk i ti c p cr sub =>
      cases sub with
      | none =>
        by_cases hm : taskMatch q i ti = true
        · simp [addSubtaskGo, insertSubtaskSpec, hm, addGo_true q nu]
        · simp only [Bool.not_eq_true] at hm
          cases hts : insertSubtaskSpec q nu ts with
          | some ts2 =>
            simp only [hts] at ihTs
            simp [addSubtaskGo, insertSubtaskSpec, hm, hts, ihTs]
          | none =>
            simp only [hts] at ihTs
            simp [addSubtaskGo, insertSubtaskSpec, hm, hts, ihTs]
      | some l =>
        simp only [subtasksD_some] at ihSub
        by_cases hm : taskMatch q i ti = true
        · simp [addSubtaskGo, insertSubtaskSpec, hm, addGo_true q nu]
        · simp only [Bool.not_eq_true] at hm
          cases hsub : insertSubtaskSpec q nu l with
          | some l2 =>
            simp only [hsub] at ihSub
            simp [addSubtaskGo, insertSubtaskSpec, hm, hsub, ihSub, addGo_true q nu]
          | none =>
            simp only [hsub] at ihSub
            cases hts : insertSubtaskSpec q nu ts with
            | some ts2 =>
              simp only [hts] at ihTs
              simp [addSubtaskGo, insertSubtaskSpec, hm, hsub, hts, ihSub, ihTs]
            | none =>
              simp only [hts] at ihTs
              simp [addSubtaskGo, insertSubtaskSpec, hm, hsub, hts, ihSub, ihTs]

theorem insertSpec_isNone (q : String) (nu : Task) :
    ∀ ts, (insertSubtaskSpec q nu ts).isNone =
      (flattenForest ts).all (fun t => !(taskMatch q t.id t.title)) := by
  apply forestInduction
  · simp [insertSubtaskSpec, flattenForest]
  · intro t ts ihSub ihTs
    cases t with
    | mk i ti c p cr sub =>
      cases sub with
      | none =>
        by_cases hm : taskMatch q i ti = true
        · simp [insertSubtaskSpec, flattenForest, hm]
        · simp only [Bool.not_eq_true] at hm
          cases hts : insertSubtaskSpec q nu ts with
          | some ts2 =>
            simp only [hts] at ihTs
            simp [insertSubtaskSpec, flattenForest, hm, hts, ← ihTs]
          | none =>
            simp only [hts] at ihTs
            simp [insertSubtaskSpec, flattenForest, hm, hts, ← ihTs]
      | some l =>
        simp only [subtasksD_some] at ihSub
        by_cases hm : taskMatch q i ti = true
        · simp [insertSubtaskSpec, flattenForest, hm]
        · simp only [Bool.not_eq_true] at hm
          cases hsub : insertSubtaskSpec q nu l with
          | some l2 =>
            simp only [hsub] at ihSub
            simp [insertSubtaskSpec, flattenForest, hm, hsub, ← ihSub]
          | none =>
            simp only [hsub] at ihSub
            cases hts : insertSubtaskSpec q nu ts with
            | some ts2 =>
              simp only [hts] at ihTs
              simp [insertSubtaskSpec, flattenForest, hm, hsub, hts, ← ihSub, ← ihTs]
            | none =>
              simp only [hts] at ihTs
              simp [insertSubtaskSpec, flattenForest, hm, hsub, hts, ← ihSub, ← ihTs]

theorem forestNodeCount_append :
    ∀ l1 l2 : List Task, forestNodeCount (l1 ++ l2) = forestNodeCount l1 + forestNodeCount l2 := by
  intro l1
  induction l1 with
  | nil => intro l2; simp [forestNodeCount]
  | cons t l1 ih =>
    intro l2
    cases t with
    | mk i ti c p cr sub =>
      cases sub with
      | none => simp [forestNodeCount, ih]; omega
      | some l => simp [forestNodeCount, ih]; omega

theorem insertSpec_count (q : String) (nu : Task) :
    ∀ ts, (match insertSubtaskSpec q nu ts with
           | some ts2 => forestNodeCount ts2 = forestNodeCount ts + forestNodeCount [nu]
           | none => True) := by
  apply forestInduction
  · simp [insertSubtaskSpec]
  · intro t ts ihSub ihTs
    cases t with
    | mk i ti c p cr sub =>
      cases sub with
      | none =>
        by_cases hm : taskMatch q i ti = true
        · simp [insertSubtaskSpec, hm, forestNodeCount]
          omega
        · simp only [Bool.not_eq_true] at hm
          cases hts : insertSubtaskSpec q nu ts with
          | some ts2 =>
            simp only [hts] at ihTs
            simp [insertSubtaskSpec, hm, hts, forestNodeCount]
            omega
          | none => simp [insertSubtaskSpec, hm, hts]
      | some l =>
        simp only [subtasksD_some] at ihSub
        by_cases hm : taskMatch q i ti = true
        · simp [insertSubtaskSpec, hm, forestNodeCount, forestNodeCount_append]
          omega
        · simp only [Bool.not_eq_true] at hm
          cases hsub : insertSubtaskSpec q nu l with
          | some l2 =>
            simp only [hsub] at ihSub
            simp [insertSubtaskSpec, hm, hsub, forestNodeCount]
            omega
          | none =>
            cases hts : insertSubtaskSpec q nu ts with
            | some ts2 =>
              simp only [hts] at ihTs
              simp [insertSubtaskSpec, hm, hsub, hts, forestNodeCount]
              omega
            | none => simp [insertSubtaskSpec, hm, hsub, hts]

/-- Claim C1: `insertSubtask` coincides with the specification function
`insertSubtaskSpec` that appends the new task to the subtask list of the
first node in depth-first, parent-before-children, sibling-order traversal
whose id equals the query or whose title contains it case-insensitively
(creating the list if absent); the spec function returns `none` exactly
when no node of the forest matches, in which case the forest is returned
unchanged with `added = false`; and the node count grows by the size of
the inserted task (one node for the leaf tasks the dispatcher builds) when
`added`, by zero otherwise, even when several nodes match. -/
theorem insertSubtask_first_match (ts : List Task) (q : String) (nu : Task) :
    addSubtaskRecursive ts q nu =
        (match insertSubtaskSpec q nu ts with
         | some ts2 => (ts2, true)
         | none => (ts, false)) ∧
      (insertSubtaskSpec q nu ts).isNone =
        (flattenForest ts).all (fun t => !(taskMatch q t.id t.title)) ∧
      forestNodeCount (addSubtaskRecursive ts q nu).1 =
        forestNodeCount ts +
          (if (addSubtaskRecursive ts q nu).2 then forestNodeCount [nu] else 0) := by
  refine ⟨addGo_false_spec q nu ts, insertSpec_isNone q nu ts, ?_⟩
  have hc := insertSpec_count q nu ts
  have hs : addSubtaskRecursive ts q nu =
      (match insertSubtaskSpec q nu ts with
       | some ts2 => (ts2, true)
       | none => (ts, false)) := addGo_false_spec q nu ts
  cases hts : insertSubtaskSpec q nu ts with
  | some ts2 =>
    simp only [hts] at hs hc
    simp [hs, hc]
  | none =>
    simp only [hts] at hs
    simp [hs]

/-- Claim C10: on a non-empty forest, `insertSubtask` with the empty
string as `parentQuery` succeeds and appends the new task as the last
subtask of the first top-level task: there is no guard against the empty
query, whose case-insensitive substring test matches the first node
visited. -/
theorem insertSubtask_empty_query_first_task (t : Task) (rest : List Task) (nu : Task) :
    addSubtaskRecursive (t :: rest) "" nu = (appendChild t nu :: rest, true) := by
  cases t with
  | mk i ti c p cr sub =>
    cases sub with
    | none =>
      simp [addSubtaskRecursive, addSubtaskGo, appendChild, taskMatch_blank, addGo_true]
    | some l =>
      simp [addSubtaskRecursive, addSubtaskGo, appendChild, taskMatch_blank, addGo_true]

theorem spec_no_id (q : String) (b : Bool) :
    ∀ ts, countNodesWithId ts q = 0 → setCompletionSpec q b ts = ts := by
  apply forestInduction
  · intro _
    simp [setCompletionSpec]
  · intro t ts ihSub ihTs
    cases t with
    | mk i ti c p cr sub =>
      cases sub with
      | none =>
        intro h
        by_cases hiq : (i == q) = true
        · simp [countNodesWithId, hiq] at h
        · simp only [Bool.not_eq_true] at hiq
          simp [countNodesWithId, hiq] at h
          simp [setCompletionSpec, hiq, ihTs h]
      | some l =>
        simp only [subtasksD_some] at ihSub
        intro h
        by_cases hiq : (i == q) = true
        · simp [countNodesWithId, hiq] at h
        · simp only [Bool.not_eq_true] at hiq
          simp [countNodesWithId, hiq] at h
          simp [setCompletionSpec, hiq, ihSub h.1, ihTs h.2]

theorem update_unique (q : String) (b : Bool) :
    ∀ ts, countNodesWithId ts q = 1 →
      updateStatusGo q b ts = (setCompletionSpec q b ts, true) := by
  apply forestInduction
  · intro h
    simp [countNodesWithId] at h
  · intro t ts ihSub ihTs
    cases t with
    | mk i ti c p cr sub =>
      cases sub with
      | none =>
        intro h
        by_cases hiq : (i == q) = true
        · simp [countNodesWithId, hiq] at h
          simp [updateStatusGo, setCompletionSpec, hiq, update_no_id q b ts h,
            spec_no_id q b ts h]
        · simp only [Bool.not_eq_true] at hiq
          simp [countNodesWithId, hiq] at h
          simp [updateStatusGo, setCompletionSpec, hiq, ihTs h]
      | some l =>
        simp only [subtasksD_some] at ihSub
        intro h
        by_cases hiq : (i == q) = true
        · simp [countNodesWithId, hiq] at h
          have hl : countNodesWithId l q = 0 := by omega
          have hts : countNodesWithId ts q = 0 := by omega
          simp [updateStatusGo, setCompletionSpec, hiq, update_no_id q b ts hts,
            spec_no_id q b ts hts, spec_no_id q b l hl]
        · simp only [Bool.not_eq_true] at hiq
          simp [countNodesWithId, hiq] at h
          by_cases hl : countNodesWithId l q = 0
          · have hts : countNodesWithId ts q = 1 := by omega
            simp [updateStatusGo, setCompletionSpec, hiq, update_no_id q b l hl,
              spec_no_id q b l hl, ihTs hts]
          · have hl1 : countNodesWithId l q = 1 := by omega
            have hts : countNodesWithId ts q = 0 := by omega
            simp [updateStatusGo, setCompletionSpec, hiq, ihSub hl1,
              update_no_id q b ts hts, spec_no_id q b ts hts]

theorem forestIds_spec (q : String) (b : Bool) :
    ∀ ts, forestIds (setCompletionSpec q b ts) = forestIds ts := by
  apply forestInduction
  · simp [setCompletionSpec]
  · intro t ts ihSub ihTs
    cases t with
    | mk i ti c p cr sub =>
      cases sub with
      | none => simp [setCompletionSpec, forestIds, ihTs]
      | some l =>
        simp only [subtasksD_some] at ihSub
        simp [setCompletionSpec, forestIds, ihSub, ihTs]

theorem forestTitles_spec (q : String) (b : Bool) :
    ∀ ts, forestTitles (setCompletionSpec q b ts) = forestTitles ts := by
  apply forestInduction
  · simp [setCompletionSpec]
  · intro t ts ihSub ihTs
    cases t with
    | mk i ti c p cr sub =>
      cases sub with
      | none => simp [setCompletionSpec, forestTitles, ihTs]
      | some l =>
        simp only [subtasksD_some] at ihSub
        simp [setCompletionSpec, forestTitles, ihSub, ihTs]

theorem forestPriorities_spec (q : String) (b : Bool) :
    ∀ ts, forestPriorities (setCompletionSpec q b ts) = forestPriorities ts := by
  apply forestInduction
  · simp [setCompletionSpec]
  · intro t ts ihSub ihTs
    cases t with
    | mk i ti c p cr sub =>
      cases sub with
      | none => simp [setCompletionSpec, forestPriorities, ihTs]
      | some l =>
        simp only [subtasksD_some] at ihSub
        simp [setCompletionSpec, forestPriorities, ihSub, ihTs]

theorem forestCreated_spec (q : String) (b : Bool) :
    ∀ ts, forestCreated (setCompletionSpec q b ts) = forestCreated ts := by
  apply forestInduction
  · simp [setCompletionSpec]
  · intro t ts ihSub ihTs
    cases t with
    | mk i ti c p cr sub =>
      cases sub with
      | none => simp [setCompletionSpec, forestCreated, ihTs]
      | some l =>
        simp only [subtasksD_some] at ihSub
        simp [setCompletionSpec, forestCreated, ihSub, ihTs]

theorem forestIdCompleted_spec (q : String) (b : Bool) :
    ∀ ts, forestIdCompleted (setCompletionSpec q b ts) =
      (forestIdCompleted ts).map (fun pr => if pr.1 == q then (pr.1, b) else pr) := by
  apply forestInduction
  · simp [setCompletionSpec, forestIdCompleted]
  · intro t ts ihSub ihTs
    cases t with
    | mk i ti c p cr sub =>
      cases sub with
      | none =>
        by_cases hiq : i = q
        · simp [setCompletionSpec, forestIdCompleted, hiq, ihTs]
        · simp [setCompletionSpec, forestIdCompleted, hiq, ihTs]
      | some l =>
        simp only [subtasksD_some] at ihSub
        by_cases hiq : i = q
        · simp [setCompletionSpec, forestIdCompleted, hiq, ihSub, ihTs]
        · simp [setCompletionSpec, forestIdCompleted, hiq, ihSub, ihTs]

/-- Claim C7: when the id occurs on exactly one node, `setCompletion`
returns `found = true` and the forest produced by the specification
function `setCompletionSpec`, which sets that node's `isCompleted` to the
given value and touches nothing else: ids, titles, priorities and creation
times of all nodes (in depth-first order) are preserved, and the
(id, isCompleted) projection changes exactly at the matching id. -/
theorem setCompletion_unique_frame (ts : List Task) (q : String) (b : Bool) :
    (countNodesWithId ts q = 1 →
        updateStatusRecursive ts q b = (setCompletionSpec q b ts, true)) ∧
      forestIds (setCompletionSpec q b ts) = forestIds ts ∧
      forestTitles (setCompletionSpec q b ts) = forestTitles ts ∧
      forestPriorities (setCompletionSpec q b ts) = forestPriorities ts ∧
      forestCreated (setCompletionSpec q b ts) = forestCreated ts ∧
      forestIdCompleted (setCompletionSpec q b ts) =
        (forestIdCompleted ts).map (fun pr => if pr.1 == q then (pr.1, b) else pr) :=
  ⟨fun h => update_unique q b ts h, forestIds_spec q b ts, forestTitles_spec q b ts,
    forestPriorities_spec q b ts, forestCreated_spec q b ts, forestIdCompleted_spec q b ts⟩

/-- Witness for C7 on the Scenario C forest: id `"2"` occurs exactly once
(on the nested subtask); `setCompletion` finds it and flips only that
node's flag. -/
theorem setCompletion_unique_frame_witness :
    countNodesWithId
        [Task.mk "1" "Review project requirements" false "high" 0
          (some [Task.mk "2" "Check email specs" false "medium" 0 none]),
         Task.mk "3" "Buy coffee beans" true "low" 1 none] "2" = 1 ∧
      updateStatusRecursive
        [Task.mk "1" "Review project requirements" false "high" 0
          (some [Task.mk "2" "Check email specs" false "medium" 0 none]),
         Task.mk "3" "Buy coffee beans" true "low" 1 none] "2" true =
        ([Task.mk "1" "Review project requirements" false "high" 0
          (some [Task.mk "2" "Check email specs" true "medium" 0 none]),
          Task.mk "3" "Buy coffee beans" true "low" 1 none], true) := by
  have hc : countNodesWithId
      [Task.mk "1" "Review project requirements" false "high" 0
        (some [Task.mk "2" "Check email specs" false "medium" 0 none]),
       Task.mk "3" "Buy coffee beans" true "low" 1 none] "2" = 1 := by
    simp [countNodesWithId]
  have hspec : setCompletionSpec "2" true
      [Task.mk "1" "Review project requirements" false "high" 0
        (some [Task.mk "2" "Check email specs" false "medium" 0 none]),
       Task.mk "3" "Buy coffee beans" true "low" 1 none] =
      [Task.mk "1" "Review project requirements" false "high" 0
        (some [Task.mk "2" "Check email specs" true "medium" 0 none]),
       Task.mk "3" "Buy coffee beans" true "low" 1 none] := by
    simp [setCompletionSpec]
  refine ⟨hc, ?_⟩
  rw [(setCompletion_unique_frame _ "2" true).1 hc, hspec]

theorem runBatch_append (snap : List Task) (now : Nat) :
    ∀ cs1 : List ToolCall, ∀ st : RoundState, ∀ cs2 : List ToolCall,
      runBatch snap now st (cs1 ++ cs2) =
        ((runBatch snap now (runBatch snap now st cs1).1 cs2).1,
         (runBatch snap now st cs1).2 ++
           (runBatch snap now (runBatch snap now st cs1).1 cs2).2) := by
  intro cs1
  induction cs1 with
  | nil =>
    intro st cs2
    simp [runBatch]
  | cons c cs ih =>
    intro st cs2
    simp [runBatch, ih]

/-- Claim C4: within one round, tool invocations are applied to the forest
strictly one after another in model-specified order (`runBatch` over a
concatenation threads the state of the first segment into the second), and
in the Scenario E batch `[addTask title, updateTaskStatus newId true]` the
second invocation observes the forest after the first: the state after the
batch starts with the newly created task with `isCompleted = true`, and
the `setCompletion` matching logic run on the post-add forest reports
`found = true`. -/
theorem batch_sequential_application (snap : List Task) (now : Nat) (st : RoundState)
    (cs1 cs2 : List ToolCall) (title : String) :
    runBatch snap now st (cs1 ++ cs2) =
        ((runBatch snap now (runBatch snap now st cs1).1 cs2).1,
         (runBatch snap now st cs1).2 ++
           (runBatch snap now (runBatch snap now st cs1).1 cs2).2) ∧
      (runBatch snap now st
          [ToolCall.addTask title none,
           ToolCall.updateTaskStatus (generateId st.nextId) true]).1 =
        RoundState.mk
          (Task.mk (generateId st.nextId) title true PriorityMEDIUM now (some [])
            :: (updateStatusGo (generateId st.nextId) true st.tasks).1)
          (st.nextId + 1) ∧
      (updateStatusRecursive
          (Task.mk (generateId st.nextId) title false PriorityMEDIUM now (some [])
            :: st.tasks)
          (generateId st.nextId) true).2 = true := by
  refine ⟨runBatch_append snap now cs1 st cs2, ?_, ?_⟩
  · simp [runBatch, dispatchCall, updateStatusRecursive, updateStatusGo, jsOrPriority]
  · simp [updateStatusRecursive, updateStatusGo]

/-- Claim C3 fails on the code: `executeGetTasks` is called on the
render-time closure variable `tasks` (the batch snapshot), not on the
forest threaded through the `setTasks` functional updates.  In the batch
`[addTask "X", getTasks]` starting from the empty forest, `getTasks`
returns the empty projection even though the forest at the moment of that
invocation already contains the task added by the first invocation, whose
call-time projection would be non-empty. -/
theorem getTasks_stale_snapshot_bug :
    runBatch [] 7 (RoundState.mk [] 0) [ToolCall.addTask "X" none, ToolCall.getTasks] =
        (RoundState.mk [Task.mk (generateId 0) "X" false PriorityMEDIUM 7 (some [])] 1,
         [ToolResult.message ("Task added successfully with ID: " ++ generateId 0),
          ToolResult.taskList []]) ∧
      simplify [Task.mk (generateId 0) "X" false PriorityMEDIUM 7 (some [])] =
        [TaskView.mk (generateId 0) "X" PriorityMEDIUM false []] := by
  constructor
  · simp [runBatch, dispatchCall, simplify, jsOrPriority]
  · simp [simplify]

/-- Claim C9 fails on the code: the dispatch layer performs no schema
validation, so an invalid priority string such as `"urgent"` (outside
`{low, medium, high}`) reaches the mutation engine and is stored verbatim
on the created task, with a success message rather than a structured
error. -/
theorem addTask_unvalidated_priority_cex :
    (runBatch [] 7 (RoundState.mk [] 0) [ToolCall.addTask "X" (some "urgent")]).1.tasks =
        [Task.mk (generateId 0) "X" false "urgent" 7 (some [])] ∧
      (runBatch [] 7 (RoundState.mk [] 0) [ToolCall.addTask "X" (some "urgent")]).2 =
        [ToolResult.message ("Task added successfully with ID: " ++ generateId 0)] := by
  constructor
  · simp [runBatch, dispatchCall, jsOrPriority]
  · simp [runBatch, dispatchCall]

/-- Amended C9: the dispatch layer does not validate `addTask` arguments;
it builds the task directly from them.  A falsy (absent or empty) priority
defaults to `"medium"`; any other string is stored on the new task
unchanged, so malformed arguments reach the mutation engine. -/
theorem addTask_no_validation (snap : List Task) (now : Nat) (st : RoundState)
    (title : String) (pr : Option String) :
    dispatchCall snap now st (ToolCall.addTask title pr) =
        (RoundState.mk
          (Task.mk (generateId st.nextId) title false (jsOrPriority pr) now (some [])
            :: st.tasks) (st.nextId + 1),
         ToolResult.message ("Task added successfully with ID: " ++ generateId st.nextId)) ∧
      (∀ s, pr = some s → (s == "") = false → jsOrPriority pr = s) ∧
      jsOrPriority none = PriorityMEDIUM ∧ jsOrPriority (some "") = PriorityMEDIUM := by
  refine ⟨by simp [dispatchCall], ?_, by simp [jsOrPriority], by simp [jsOrPriority]⟩
  intro s hs hne
  rw [hs]
  simp [jsOrPriority, hne]

/-- Witness for the amended C9 at the concrete invalid priority
`"urgent"`: it passes through to the task stored by the engine. -/
theorem addTask_no_validation_witness :
    jsOrPriority (some "urgent") = "urgent" ∧
      (dispatchCall [] 7 (RoundState.mk [] 0) (ToolCall.addTask "X" (some "urgent"))).1.tasks =
        [Task.mk (generateId 0) "X" false "urgent" 7 (some [])] := by
  have h2 := (addTask_no_validation [] 7 (RoundState.mk [] 0) "X" (some "urgent")).2.1
    "urgent" rfl (by decide)
  refine ⟨h2, ?_⟩
  rw [(addTask_no_validation [] 7 (RoundState.mk [] 0) "X" (some "urgent")).1, h2]

end TaskAI
